import Mathlib

/-!
Shallow embedding of `packages/babel-preset-expo/src/expo-router-plugin.ts`.

The file models, from the source:
* the process-wide mutable state (the `process.env` string store and the
  module-level `config` memo) as an explicit `St` record that every stateful
  function threads through;
* `getConfigMemo`, `getExpoRouterImportMode`, `getRouterDirectory`,
  `getExpoRouterAbsoluteAppRoot`, `getExpoRouterAppRoot`;
* the `MemberExpression` visitor of `expoRouterBabelPlugin` as a recursive
  rewrite `inlineExpr` over a small JavaScript expression syntax;
* the `Program` visitor of `expoRouterServerComponentClientReferencesPlugin`
  as `clientReferencesPlugin` over a small module syntax.

External collaborators (`expo/config.getConfig`, `fs`, `path`, `resolve-from`,
the Babel caller data) are parameters gathered in a `Ctx` record.  JavaScript
truthiness of environment strings and of the `asyncRoutes` config value is
modelled explicitly; a thrown `Error` is an `Except.error`.
-/

/-- A JavaScript value that the `asyncRoutes` setting may resolve to:
`undefined`, a boolean, or a string. -/
inductive JVal where
  | undefined : JVal
  | jbool : Bool → JVal
  | jstr : String → JVal
deriving DecidableEq, Repr

/-- The shape of `exp.extra?.router?.asyncRoutes`: absent, a boolean, a
string, or an object mapping platform names (and `default`) to values. -/
inductive AsyncRoutesCfg where
  | absent : AsyncRoutesCfg
  | jbool : Bool → AsyncRoutesCfg
  | jstr : String → AsyncRoutesCfg
  | obj : List (String × JVal) → AsyncRoutesCfg
deriving DecidableEq, Repr

/-- The `exp.extra?.router` sub-object consumed by the plugin. -/
structure RouterCfg where
  asyncRoutes : AsyncRoutesCfg
  unstable_src : Option String
deriving DecidableEq, Repr

/-- The `exp.web` sub-object consumed by the plugin. -/
structure WebCfg where
  output : Option String
deriving DecidableEq, Repr

/-- The `exp` part of the resolved project config (`expo/config`). -/
structure ExpCfg where
  router : Option RouterCfg
  web : Option WebCfg
deriving DecidableEq, Repr

/-- The result of `getConfig(projectRoot)`; only `exp` is consumed. -/
structure ProjectConfig where
  exp : ExpCfg
deriving DecidableEq, Repr

/-- JavaScript truthiness of an optional environment-store string:
`undefined` and the empty string are falsy, all other strings truthy. -/
def isTruthy : Option String → Bool
  | some s => ¬ s = ""
  | none => false

/-- JavaScript `a || b` on optional strings (empty string falsy). -/
def jsOr (a b : Option String) : Option String :=
  if isTruthy a then a else b

/-- JavaScript `a || b` where `b` is a plain string (used for
`unstable_src || getRouterDirectory(...)` and the project-root chain). -/
def jsOrS (a : Option String) (b : String) : String :=
  match a with
  | some s => if s = "" then b else s
  | none => b

/-- The process-wide mutable state of the module: the `process.env` string
store and the module-level `config` memo variable. -/
structure St where
  env : String → Option String
  config : Option ProjectConfig

/-- `process.env[k] = v`. -/
def St.set (st : St) (k v : String) : St :=
  { st with env := fun k2 => if k2 = k then some v else st.env k2 }

/-- External collaborators and per-invocation Babel caller data. -/
structure Ctx where
  platform : Option String
  possibleProjectRoot : Option String
  fileOptsRoot : Option String
  getConfig : String → ProjectConfig
  dirExists : String → Bool
  resolveFrom : String → String → String
  pathJoin : String → String → String
  pathRelative : String → String → String
  pathDirname : String → String

/-- `getConfigMemo` (source lines 13-18): recompute when the memo is empty or
`process.env._EXPO_INTERNAL_TESTING` is truthy, else return the memo. -/
def getConfigMemo (ctx : Ctx) (st : St) (projectRoot : String) :
    ProjectConfig × St :=
  match st.config with
  | some c =>
      if isTruthy (st.env "_EXPO_INTERNAL_TESTING") then
        (ctx.getConfig projectRoot,
          { st with config := some (ctx.getConfig projectRoot) })
      else (c, st)
  | none =>
      (ctx.getConfig projectRoot,
        { st with config := some (ctx.getConfig projectRoot) })

/-- `exp.extra?.router?.asyncRoutes` with optional chaining. -/
def asyncRoutesOf (c : ProjectConfig) : AsyncRoutesCfg :=
  match c.exp.router with
  | some r => r.asyncRoutes
  | none => .absent

/-- JavaScript truthiness of the `asyncRoutes` config value. -/
def AsyncRoutesCfg.truthy : AsyncRoutesCfg → Bool
  | .absent => false
  | .jbool b => b
  | .jstr s => ¬ s = ""
  | .obj _ => true

/-- Property lookup on the object form (`undefined` when missing). -/
def jlookup (es : List (String × JVal)) (k : String) : JVal :=
  match es.find? (fun e => e.1 = k) with
  | some e => e.2
  | none => .undefined

/-- The `asyncRoutesSetting` local of `getExpoRouterImportMode` (source lines
29-38): a string value is used directly, an object is looked up as
`asyncRoutes[platform] ?? asyncRoutes.default`, anything else (including a
top-level boolean) leaves the setting `undefined`. -/
def asyncRoutesSetting (c : ProjectConfig) (platform : String) : JVal :=
  let ar := asyncRoutesOf c
  if ar.truthy then
    match ar with
    | .jstr s => .jstr s
    | .obj es =>
        match jlookup es platform with
        | .undefined => jlookup es "default"
        | v => v
    | _ => .undefined
  else .undefined

/-- The environment value as a `JVal` for the `includes` membership test. -/
def envToJVal : Option String → JVal
  | some s => .jstr s
  | none => .undefined

/-- `[env, true].includes(asyncRoutesSetting) ? 'lazy' : 'sync'` (line 40). -/
def importModeCandidate (cfg : ProjectConfig) (env : Option String)
    (platform : String) : String :=
  if asyncRoutesSetting cfg platform = envToJVal env ∨
      asyncRoutesSetting cfg platform = JVal.jbool true then "lazy" else "sync"

/-- The message of the error thrown for lazy routes in production. -/
def importModeProdError : String :=
  "Async routes are not supported in production yet. Set the expo-router Config Plugin prop asyncRoutes to development, false, or undefined."

/-- `(exp.web || \x7b\x7d).output`. -/
def webOutput (c : ProjectConfig) : Option String :=
  match c.exp.web with
  | some w => w.output
  | none => none

/-- The body of `getExpoRouterImportMode` after the cached-override check
(source lines 25-59): compute the candidate mode, throw on production + lazy,
force `sync` for static web output, cache and return. -/
def importModeCore (ctx : Ctx) (st : St) (projectRoot platform envVar : String) :
    Except String (String × St) :=
  let env := jsOr (st.env "NODE_ENV") (st.env "BABEL_ENV")
  match getConfigMemo ctx st projectRoot with
  | (cfg, st1) =>
    let mode := importModeCandidate cfg env platform
    if env = some "production" ∧ mode = "lazy" then
      .error importModeProdError
    else
      let mode2 :=
        if platform = "web" ∧ webOutput cfg = some "static" then "sync" else mode
      .ok (mode2, st1.set envVar mode2)

/-- ASCII `toUpperCase`, as applied to platform names (written so that it
reduces definitionally on literals). -/
def jsToUpper (s : String) : String := ⟨s.data.map Char.toUpper⟩

/-- `getExpoRouterImportMode` (source lines 20-60): a truthy cached
per-platform override is returned verbatim, otherwise the core runs. -/
def getExpoRouterImportMode (ctx : Ctx) (st : St) (projectRoot platform : String) :
    Except String (String × St) :=
  let envVar := "EXPO_ROUTER_IMPORT_MODE_" ++ jsToUpper platform
  match st.env envVar with
  | some v =>
      if v = "" then importModeCore ctx st projectRoot platform envVar
      else .ok (v, st)
  | none => importModeCore ctx st projectRoot platform envVar

/-- `getRouterDirectory` (source lines 66-75). -/
def getRouterDirectory (ctx : Ctx) (projectRoot : String) : String :=
  if ctx.dirExists (ctx.pathJoin projectRoot "src/app") then "./src/app"
  else "./app"

/-- `getExpoRouterAbsoluteAppRoot` (source lines 96-110). -/
def getExpoRouterAbsoluteAppRoot (ctx : Ctx) (st : St) (projectRoot : String) :
    String × St :=
  if isTruthy (st.env "EXPO_ROUTER_ABS_APP_ROOT") then
    ((st.env "EXPO_ROUTER_ABS_APP_ROOT").getD "", st)
  else
    match getConfigMemo ctx st projectRoot with
    | (cfg, st1) =>
      let customSrc :=
        jsOrS (match cfg.exp.router with
               | some r => r.unstable_src
               | none => none)
          (getRouterDirectory ctx projectRoot)
      let appFolder :=
        if customSrc.startsWith "/" then customSrc
        else ctx.pathJoin projectRoot customSrc
      (appFolder, st1.set "EXPO_ROUTER_ABS_APP_ROOT" appFolder)

/-- `getExpoRouterAppRoot` (source lines 77-94). -/
def getExpoRouterAppRoot (ctx : Ctx) (st : St) (projectRoot : String) :
    String × St :=
  if isTruthy (st.env "EXPO_ROUTER_APP_ROOT_2") then
    ((st.env "EXPO_ROUTER_APP_ROOT_2").getD "", st)
  else
    let routerEntry := ctx.resolveFrom projectRoot "expo-router/entry"
    match getExpoRouterAbsoluteAppRoot ctx st projectRoot with
    | (appFolder, st1) =>
      let appRoot := ctx.pathRelative (ctx.pathDirname routerEntry) appFolder
      (appRoot, st1.set "EXPO_ROUTER_APP_ROOT_2" appRoot)

/-! ## The expression syntax and the env-inlining visitor -/

/-- A fragment of the JavaScript expression syntax: identifiers, string and
boolean literals, non-computed member access, assignment, and a generic
binary/other composite node. -/
inductive Expr where
  | ident : String → Expr
  | strLit : String → Expr
  | boolLit : Bool → Expr
  | member : Expr → String → Expr
  | assign : Expr → Expr → Expr
  | bin : String → Expr → Expr → Expr
deriving DecidableEq, Repr

/-- The node `process.env` (identifier object `process`, identifier property
`env`). -/
def isProcEnv (e : Expr) : Bool :=
  e = Expr.member (Expr.ident "process") "env"

/-- The expression `process.env.<name>`. -/
def procEnvRead (name : String) : Expr :=
  .member (.member (.ident "process") "env") name

/-- `possibleProjectRoot || state.file.opts.root || ''` (source line 146). -/
def visitorProjectRoot (ctx : Ctx) : String :=
  jsOrS ctx.possibleProjectRoot (jsOrS ctx.fileOptsRoot "")

/-- The body of the `MemberExpression` visitor of `expoRouterBabelPlugin`
(source lines 133-203) for a node `process.env.<name>` whose parent either is
or is not an `AssignmentExpression`: the if/else-if dispatch on the property
name, each branch requiring a non-assignment parent, replacing the whole
member expression with a literal. -/
def envMemberDispatch (ctx : Ctx) (name : String) (parentIsAssign : Bool)
    (st : St) : Except String (Expr × St) :=
  if name = "EXPO_PROJECT_ROOT" ∧ parentIsAssign = false then
    .ok (.strLit (visitorProjectRoot ctx), st)
  else if name = "EXPO_PUBLIC_USE_STATIC" ∧ parentIsAssign = false then
    .ok (.boolLit
      (if ctx.platform = some "web" then
        (if st.env "EXPO_PUBLIC_USE_STATIC" = some "true" ∨
            st.env "EXPO_PUBLIC_USE_STATIC" = some "1" then true else false)
       else false), st)
  else if ¬ st.env "NODE_ENV" = some "test" ∧ name = "EXPO_ROUTER_ABS_APP_ROOT" ∧
      parentIsAssign = false then
    .ok (.strLit (getExpoRouterAbsoluteAppRoot ctx st (visitorProjectRoot ctx)).1,
      (getExpoRouterAbsoluteAppRoot ctx st (visitorProjectRoot ctx)).2)
  else if ¬ st.env "NODE_ENV" = some "test" ∧ name = "EXPO_ROUTER_APP_ROOT" ∧
      parentIsAssign = false then
    .ok (.strLit (getExpoRouterAppRoot ctx st (visitorProjectRoot ctx)).1,
      (getExpoRouterAppRoot ctx st (visitorProjectRoot ctx)).2)
  else
    match ctx.platform with
    | some p =>
        if ¬ p = "" ∧ name = "EXPO_ROUTER_IMPORT_MODE_" ++ jsToUpper p ∧
            parentIsAssign = false then
          match getExpoRouterImportMode ctx st (visitorProjectRoot ctx) p with
          | .ok ms => .ok (.strLit ms.1, ms.2)
          | .error err => .error err
        else .ok (procEnvRead name, st)
    | none => .ok (procEnvRead name, st)

/-- The env-inlining pass as a recursive traversal of the expression syntax.
A node `process.env.<name>` is dispatched with a flag telling whether its
parent is an `AssignmentExpression` (the `parent.parentPath.isAssignmentExpression()`
check of the source); other nodes recurse into their children in source
order, threading the process state; a thrown error aborts the file. -/
def inlineExpr (ctx : Ctx) : Expr → Bool → St → Except String (Expr × St)
  | .ident n, _, st => .ok (.ident n, st)
  | .strLit s, _, st => .ok (.strLit s, st)
  | .boolLit b, _, st => .ok (.boolLit b, st)
  | .member obj prop, pa, st =>
      if isProcEnv obj then envMemberDispatch ctx prop pa st
      else
        match inlineExpr ctx obj false st with
        | .ok os => .ok (.member os.1 prop, os.2)
        | .error err => .error err
  | .assign l r, _, st =>
      match inlineExpr ctx l true st with
      | .ok ls =>
          match inlineExpr ctx r true ls.2 with
          | .ok rs => .ok (.assign ls.1 rs.1, rs.2)
          | .error err => .error err
      | .error err => .error err
  | .bin op l r, _, st =>
      match inlineExpr ctx l false st with
      | .ok ls =>
          match inlineExpr ctx r false ls.2 with
          | .ok rs => .ok (.bin op ls.1 rs.1, rs.2)
          | .error err => .error err
      | .error err => .error err

/-- First component of a successful inlining run. -/
def okExpr : Except String (Expr × St) → Option Expr
  | .ok es => some es.1
  | .error _ => none

/-- First component of a successful import-mode resolution. -/
def okMode : Except String (String × St) → Option String
  | .ok ms => some ms.1
  | .error _ => none

/-! ## The client-references pass -/

/-- Object-literal values occurring in descriptor stubs. -/
inductive JLit where
  | str : String → JLit
  | bool : Bool → JLit
deriving DecidableEq, Repr

/-- Expressions occurring as declaration / default-export values: an object
literal of identifier-keyed literal properties, or any other expression. -/
inductive JExpr where
  | objectExpression : List (String × JLit) → JExpr
  | otherExpr : JExpr
deriving DecidableEq, Repr

/-- One declarator of a variable declaration (`id` and optional init). -/
structure Declarator where
  id : String
  init : Option JExpr
deriving DecidableEq, Repr

/-- The declaration carried by an `ExportNamedDeclaration`: a variable
declaration with its declarators, or another declaration form with its
binding identifier (function / class declarations). -/
inductive DeclNode where
  | variableDeclaration : String → List Declarator → DeclNode
  | otherDecl : String → DeclNode
deriving DecidableEq, Repr

/-- A top-level module item: a named export (optional declaration plus
specifier exported names), a default export (optional declaration), or any
other statement. -/
inductive ModuleItem where
  | exportNamed : Option DeclNode → List String → ModuleItem
  | exportDefaultD : Option JExpr → ModuleItem
  | otherStmt : Nat → ModuleItem
deriving DecidableEq, Repr

/-- A module: its leading directive values and its body. -/
structure Program where
  directives : List String
  body : List ModuleItem
deriving DecidableEq, Repr

/-- Export names contributed by one module item (source lines 232-251):
a named export with a variable declaration contributes each declarator id,
with another declaration its binding id, without a declaration its specifier
exported names; a default export with a declaration contributes `default`,
without one nothing; other statements contribute nothing. -/
def itemExports : ModuleItem → List String
  | .exportNamed (some (.variableDeclaration _ ds)) _ => ds.map (fun d => d.id)
  | .exportNamed (some (.otherDecl i)) _ => [i]
  | .exportNamed none specs => specs
  | .exportDefaultD (some _) => ["default"]
  | .exportDefaultD none => []
  | .otherStmt _ => []

/-- The `exports` list collected by traversing the module body in order. -/
def collectExports (body : List ModuleItem) : List String :=
  (body.map itemExports).flatten

/-- The client-reference descriptor object literal built for one export
(source lines 265-302). -/
def clientReferenceDescriptor (outputKey exp : String) : JExpr :=
  .objectExpression
    [("$$typeof", .str "react.client.reference"),
     ("$$async", .bool false),
     ("$$id", .str (outputKey ++ "#" ++ exp)),
     ("name", .str exp)]

/-- The stub statement generated for one export on the server target:
a default export of the descriptor for `default`, otherwise
`export const <exp> = <descriptor>`. -/
def stubFor (outputKey exp : String) : ModuleItem :=
  if exp = "default" then
    .exportDefaultD (some (clientReferenceDescriptor outputKey exp))
  else
    .exportNamed
      (some (.variableDeclaration "const"
        [⟨exp, some (clientReferenceDescriptor outputKey exp)⟩])) []

/-- The manifest entry recorded as `state.file.metadata.clientReferences`. -/
structure ManifestEntry where
  entryPoint : String
  exports : List String
deriving DecidableEq, Repr

/-- The `Program` visitor of `expoRouterServerComponentClientReferencesPlugin`
(source lines 219-312): do nothing without the `use client` directive;
otherwise compute the output key, collect the exports, and either replace the
body with stubs (server) or record the manifest metadata (client). -/
def clientReferencesPlugin (isServer : Bool) (serverRoot filename : String)
    (rel : String → String → String) (p : Program) :
    Program × Option ManifestEntry :=
  if "use client" ∈ p.directives then
    let outputKey := "/" ++ rel serverRoot filename
    let exports := collectExports p.body
    if isServer then
      ({ directives := [], body := exports.map (stubFor outputKey) }, none)
    else
      (p, some ⟨outputKey, exports⟩)
  else (p, none)

/-- Property lookup inside an object literal of a stub. -/
def jlookupLit (props : List (String × JLit)) (k : String) : Option JLit :=
  match props.find? (fun e => e.1 = k) with
  | some e => some e.2
  | none => none

/-- The `$$id` string of a stub item, when the item carries a descriptor
object: reads the `$$id` property of the exported object literal. -/
def itemDescriptorId : ModuleItem → Option String
  | .exportDefaultD (some (.objectExpression props)) =>
      match jlookupLit props "$$id" with
      | some (.str s) => some s
      | _ => none
  | .exportNamed (some (.variableDeclaration _ [⟨_, some (.objectExpression props)⟩])) _ =>
      match jlookupLit props "$$id" with
      | some (.str s) => some s
      | _ => none
  | _ => none

/-! ## Concrete fixtures -/

/-- Empty project config: no router options, no web options. -/
def cfg0 : ProjectConfig := ⟨⟨none, none⟩⟩

/-- Config with `asyncRoutes: "development"`. -/
def cfgDev : ProjectConfig := ⟨⟨some ⟨.jstr "development", none⟩, none⟩⟩

/-- Config with `asyncRoutes: "production"`. -/
def cfgProd : ProjectConfig := ⟨⟨some ⟨.jstr "production", none⟩, none⟩⟩

/-- Config with `asyncRoutes: "production"` and static web output. -/
def cfgProdStatic : ProjectConfig :=
  ⟨⟨some ⟨.jstr "production", none⟩, some ⟨some "static"⟩⟩⟩

/-- Config with static web output only. -/
def cfgStatic : ProjectConfig := ⟨⟨none, some ⟨some "static"⟩⟩⟩

/-- A concrete context: web platform, project root `/p`, empty config. -/
def ctx0 : Ctx :=
  ⟨some "web", some "/p", none, fun _ => cfg0, fun _ => false,
    fun a b => a ++ "/node_modules/" ++ b, fun a b => a ++ "/" ++ b,
    fun _ b => b, fun a => a⟩

/-- `ctx0` with `asyncRoutes: "development"`. -/
def ctxDev : Ctx := { ctx0 with getConfig := fun _ => cfgDev }

/-- `ctx0` with `asyncRoutes: "production"`. -/
def ctxProd : Ctx := { ctx0 with getConfig := fun _ => cfgProd }

/-- `ctx0` with `asyncRoutes: "production"` and static web output. -/
def ctxStatic : Ctx := { ctx0 with getConfig := fun _ => cfgProdStatic }

/-- `ctx0` with static web output only. -/
def ctxStaticOnly : Ctx := { ctx0 with getConfig := fun _ => cfgStatic }

/-- Development environment, nothing cached. -/
def st0 : St := ⟨fun k => if k = "NODE_ENV" then some "development" else none, none⟩

/-- Production environment, nothing cached. -/
def stProd : St := ⟨fun k => if k = "NODE_ENV" then some "production" else none, none⟩

/-- Production environment with a cached `lazy` override for web. -/
def stLazy : St :=
  ⟨fun k =>
    if k = "NODE_ENV" then some "production"
    else if k = "EXPO_ROUTER_IMPORT_MODE_WEB" then some "lazy" else none, none⟩

/-- Test environment, nothing cached. -/
def stTest : St := ⟨fun k => if k = "NODE_ENV" then some "test" else none, none⟩

/-- No environment variables, config memo already holding `cfg0`. -/
def stCfg : St := ⟨fun _ => none, some cfg0⟩

/-- Test-mode flag set, config memo already holding `cfg0`. -/
def stTestFlag : St :=
  ⟨fun k => if k = "_EXPO_INTERNAL_TESTING" then some "1" else none, some cfg0⟩

/-! ## Import-mode and config-memo claims -/

/-- The candidate mode is always `lazy` or `sync`. -/
theorem importModeCandidate_cases (cfg : ProjectConfig) (env : Option String)
    (p : String) :
    importModeCandidate cfg env p = "lazy" ∨ importModeCandidate cfg env p = "sync" := by
  unfold importModeCandidate
  split <;> simp

/-- C10: `getConfigMemo` memoizes the project configuration: with an empty
memo it loads and caches `getConfig projectRoot`; with a filled memo and the
test flag unset it returns the cached value unchanged; with the test flag set
it recomputes (and re-caches) on every call. -/
theorem getConfigMemo_memoizes (ctx : Ctx) (st : St) (projectRoot : String) :
    (st.config = none →
      getConfigMemo ctx st projectRoot =
        (ctx.getConfig projectRoot,
          { st with config := some (ctx.getConfig projectRoot) })) ∧
    (∀ c, st.config = some c →
      isTruthy (st.env "_EXPO_INTERNAL_TESTING") = false →
      getConfigMemo ctx st projectRoot = (c, st)) ∧
    (isTruthy (st.env "_EXPO_INTERNAL_TESTING") = true →
      getConfigMemo ctx st projectRoot =
        (ctx.getConfig projectRoot,
          { st with config := some (ctx.getConfig projectRoot) })) := by
  refine ⟨?_, ?_, ?_⟩
  · intro h
    simp [getConfigMemo, h]
  · intro c h ht
    simp [getConfigMemo, h, ht]
  · intro ht
    cases hc : st.config with
    | none => simp [getConfigMemo, hc]
    | some c => simp [getConfigMemo, hc, ht]

/-- Witness for C10 at concrete states: empty memo, filled memo without the
flag, filled memo with the flag. -/
theorem getConfigMemo_memoizes_witness :
    getConfigMemo ctx0 st0 "/p" = (cfg0, { st0 with config := some cfg0 }) ∧
    getConfigMemo ctx0 stCfg "/p" = (cfg0, stCfg) ∧
    getConfigMemo ctx0 stTestFlag "/p" =
      (cfg0, { stTestFlag with config := some cfg0 }) :=
  ⟨(getConfigMemo_memoizes ctx0 st0 "/p").1 rfl,
   (getConfigMemo_memoizes ctx0 stCfg "/p").2.1 cfg0 rfl rfl,
   (getConfigMemo_memoizes ctx0 stTestFlag "/p").2.2 rfl⟩

/-- C2 (amended): a truthy cached per-platform override is returned verbatim
by `getExpoRouterImportMode` even in production; when no truthy override is
cached and the resolved environment is `production`, the function never
returns `lazy` (a lazy candidate throws instead). -/
theorem getExpoRouterImportMode_production_never_lazy (ctx : Ctx) (st : St)
    (pr p : String) :
    (∀ v, st.env ("EXPO_ROUTER_IMPORT_MODE_" ++ jsToUpper p) = some v → ¬ v = "" →
      getExpoRouterImportMode ctx st pr p = .ok (v, st)) ∧
    (isTruthy (st.env ("EXPO_ROUTER_IMPORT_MODE_" ++ jsToUpper p)) = false →
      jsOr (st.env "NODE_ENV") (st.env "BABEL_ENV") = some "production" →
      ∀ st1, ¬ getExpoRouterImportMode ctx st pr p = .ok ("lazy", st1)) := by
  constructor
  · intro v hv hne
    simp [getExpoRouterImportMode, hv, hne]
  · intro hc he st1 h
    have hcore : importModeCore ctx st pr p ("EXPO_ROUTER_IMPORT_MODE_" ++ jsToUpper p) =
        .ok ("lazy", st1) := by
      unfold getExpoRouterImportMode at h
      cases hv : st.env ("EXPO_ROUTER_IMPORT_MODE_" ++ jsToUpper p) with
      | none => simp only [hv] at h; exact h
      | some v =>
          rw [hv] at hc
          have hve : v = "" := by simpa [isTruthy] using hc
          simp only [hv, hve, if_pos] at h
          exact h
    rcases hg : getConfigMemo ctx st pr with ⟨cfg, st2⟩
    simp only [importModeCore, hg, he] at hcore
    rcases importModeCandidate_cases cfg (some "production") p with hm | hm
    · simp [hm] at hcore
    · simp [hm] at hcore

/-- Witness for C2: the cached `lazy` override is returned verbatim, and at a
concrete production state without an override the result is never
`.ok ("lazy", _)`. -/
theorem getExpoRouterImportMode_production_never_lazy_witness :
    getExpoRouterImportMode ctx0 stLazy "/p" "web" = .ok ("lazy", stLazy) ∧
    ¬ getExpoRouterImportMode ctx0 stProd "/p" "web" = .ok ("lazy", stProd) :=
  ⟨(getExpoRouterImportMode_production_never_lazy ctx0 stLazy "/p" "web").1
      "lazy" rfl (by decide),
   (getExpoRouterImportMode_production_never_lazy ctx0 stProd "/p" "web").2
      rfl rfl stProd⟩

/-- Counterexample for C2 as stated: with the per-platform override
`EXPO_ROUTER_IMPORT_MODE_WEB = "lazy"` already cached process-wide and
`NODE_ENV = "production"`, `getExpoRouterImportMode` returns `"lazy"`. -/
theorem getExpoRouterImportMode_cached_lazy_in_production :
    stLazy.env "NODE_ENV" = some "production" ∧
    okMode (getExpoRouterImportMode ctx0 stLazy "/p" "web") = some "lazy" :=
  ⟨rfl, rfl⟩

/-- C3 (amended): with no truthy cached override, a `production` environment
and a `lazy` candidate mode, resolution throws the configuration error; but
in the particular scenario (root `/p`, platform `web`, async-routes setting
`"development"`, environment `production`) the candidate is `sync`, so
resolution returns `"sync"` without throwing. -/
theorem getExpoRouterImportMode_production_lazy_throws (ctx : Ctx) (st : St)
    (pr p : String) :
    (isTruthy (st.env ("EXPO_ROUTER_IMPORT_MODE_" ++ jsToUpper p)) = false →
      jsOr (st.env "NODE_ENV") (st.env "BABEL_ENV") = some "production" →
      importModeCandidate (getConfigMemo ctx st pr).1 (some "production") p = "lazy" →
      getExpoRouterImportMode ctx st pr p = .error importModeProdError) ∧
    okMode (getExpoRouterImportMode ctxDev stProd "/p" "web") = some "sync" := by
  constructor
  · intro hc he hm
    have hgoal : importModeCore ctx st pr p ("EXPO_ROUTER_IMPORT_MODE_" ++ jsToUpper p) =
        .error importModeProdError := by
      rcases hg : getConfigMemo ctx st pr with ⟨cfg, st2⟩
      rw [hg] at hm
      simp only [importModeCore, hg, he]
      simp [hm]
    unfold getExpoRouterImportMode
    cases hv : st.env ("EXPO_ROUTER_IMPORT_MODE_" ++ jsToUpper p) with
    | none => simpa only [hv] using hgoal
    | some v =>
        rw [hv] at hc
        have hve : v = "" := by simpa [isTruthy] using hc
        simpa only [hv, hve, if_pos] using hgoal
  · rfl

/-- Witness for C3 at a concrete input where the candidate is lazy:
`asyncRoutes: "production"`, environment `production`, platform `web`. -/
theorem getExpoRouterImportMode_production_lazy_throws_witness :
    getExpoRouterImportMode ctxProd stProd "/p" "web" = .error importModeProdError :=
  (getExpoRouterImportMode_production_lazy_throws ctxProd stProd "/p" "web").1
    rfl rfl rfl

/-- Counterexample for C3 as stated: at project root `/p`, platform `web`,
async-routes setting `"development"` and environment `production`, resolution
does not throw; it returns `"sync"`. -/
theorem getExpoRouterImportMode_dev_setting_production_returns_sync :
    stProd.env "NODE_ENV" = some "production" ∧
    asyncRoutesSetting (ctxDev.getConfig "/p") "web" = .jstr "development" ∧
    okMode (getExpoRouterImportMode ctxDev stProd "/p" "web") = some "sync" :=
  ⟨rfl, rfl, rfl⟩

/-- C4 (amended): for web with static web output and no truthy cached
override, the result is `"sync"` whenever the production safety check does
not fire; the static-output override applies after that check, which still
throws on production plus a lazy candidate. -/
theorem getExpoRouterImportMode_web_static_sync (ctx : Ctx) (st : St) (pr : String) :
    isTruthy (st.env ("EXPO_ROUTER_IMPORT_MODE_" ++ jsToUpper "web")) = false →
    webOutput (getConfigMemo ctx st pr).1 = some "static" →
    ¬ (jsOr (st.env "NODE_ENV") (st.env "BABEL_ENV") = some "production" ∧
       importModeCandidate (getConfigMemo ctx st pr).1
         (jsOr (st.env "NODE_ENV") (st.env "BABEL_ENV")) "web" = "lazy") →
    okMode (getExpoRouterImportMode ctx st pr "web") = some "sync" := by
  intro hc hw hn
  have hgoal : okMode (importModeCore ctx st pr "web"
      ("EXPO_ROUTER_IMPORT_MODE_" ++ jsToUpper "web")) = some "sync" := by
    rcases hg : getConfigMemo ctx st pr with ⟨cfg, st2⟩
    rw [hg] at hw hn
    simp only [importModeCore, hg]
    rw [if_neg hn]
    simp [hw, okMode]
  unfold getExpoRouterImportMode
  cases hv : st.env ("EXPO_ROUTER_IMPORT_MODE_" ++ jsToUpper "web") with
  | none => simpa only [hv] using hgoal
  | some v =>
      rw [hv] at hc
      have hve : v = "" := by simpa [isTruthy] using hc
      simpa only [hv, hve, if_pos] using hgoal

/-- Witness for C4 at a concrete input: static web output, development
environment, async routes absent. -/
theorem getExpoRouterImportMode_web_static_sync_witness :
    okMode (getExpoRouterImportMode ctxStaticOnly st0 "/p" "web") = some "sync" :=
  getExpoRouterImportMode_web_static_sync ctxStaticOnly st0 "/p" rfl rfl
    (by decide)

/-- Counterexample for C4 as stated: with static web output but environment
`production` and async-routes setting `"production"` (a lazy candidate),
resolution throws instead of yielding `"sync"` — the static special case does
not override the production safety check. -/
theorem getExpoRouterImportMode_web_static_production_throws :
    webOutput (ctxStatic.getConfig "/p") = some "static" ∧
    getExpoRouterImportMode ctxStatic stProd "/p" "web" = .error importModeProdError :=
  ⟨rfl, rfl⟩

/-! ## Client-references claims -/

/-- The stub built for one export carries exactly the id
`outputKey # exp`. -/
theorem itemDescriptorId_stubFor (outputKey exp : String) :
    itemDescriptorId (stubFor outputKey exp) = some (outputKey ++ "#" ++ exp) := by
  by_cases h : exp = "default"
  · subst h
    simp [stubFor, clientReferenceDescriptor, itemDescriptorId, jlookupLit]
  · simp [stubFor, h, clientReferenceDescriptor, itemDescriptorId, jlookupLit]

/-- `filterMap` of an everywhere-`some` function is a `map`. -/
theorem filterMap_some_comp (f : String → String) (l : List String) :
    l.filterMap (fun n => some (f n)) = l.map f := by
  induction l with
  | nil => rfl
  | cons x xs ih => simp [List.filterMap_cons, ih]

/-- Stub ids of a generated body, in order. -/
theorem stub_ids (outputKey : String) (l : List String) :
    l.filterMap (fun n => itemDescriptorId (stubFor outputKey n)) =
      l.map (fun n => outputKey ++ "#" ++ n) := by
  have h : (fun n => itemDescriptorId (stubFor outputKey n)) =
      fun n : String => some (outputKey ++ "#" ++ n) :=
    funext (itemDescriptorId_stubFor outputKey)
  rw [h, filterMap_some_comp]

/-- C1: for a file bearing the `use client` directive, processing once as
server target and once as client target yields a manifest entry whose export
names, prefixed with `entryPoint ++ "#"`, are exactly the `$$id` values of
the generated descriptor stubs, in the same declaration order. -/
theorem clientReferences_manifest_stub_agreement (sr fn : String)
    (rel : String → String → String) (p : Program)
    (h : "use client" ∈ p.directives) :
    (clientReferencesPlugin false sr fn rel p).2.map
        (fun m => m.exports.map (fun n => m.entryPoint ++ "#" ++ n)) =
      some (((clientReferencesPlugin true sr fn rel p).1.body).filterMap
        itemDescriptorId) := by
  simp only [clientReferencesPlugin, if_pos h, if_neg, Bool.false_eq_true,
    ite_false, ite_true]
  simp only [Option.map_some, List.filterMap_map]
  exact congrArg some (stub_ids _ _).symm

/-- Witness for C1: a concrete client file exporting `a`, `b` and a default
value. -/
theorem clientReferences_manifest_stub_agreement_witness :
    (clientReferencesPlugin false "/s" "/s/components/Foo.js" (fun _ b => b)
        ⟨["use client"],
         [.exportNamed (some (.variableDeclaration "const"
             [⟨"a", none⟩, ⟨"b", none⟩])) [],
          .exportDefaultD (some .otherExpr)]⟩).2.map
        (fun m => m.exports.map (fun n => m.entryPoint ++ "#" ++ n)) =
      some (((clientReferencesPlugin true "/s" "/s/components/Foo.js"
          (fun _ b => b)
          ⟨["use client"],
           [.exportNamed (some (.variableDeclaration "const"
               [⟨"a", none⟩, ⟨"b", none⟩])) [],
            .exportDefaultD (some .otherExpr)]⟩).1.body).filterMap
        itemDescriptorId) :=
  clientReferences_manifest_stub_agreement "/s" "/s/components/Foo.js"
    (fun _ b => b) _ (by decide)

/-- C7: without the `use client` directive the pass returns the tree
unchanged and attaches no metadata, for both server and client targets. -/
theorem clientReferences_no_directive (isServer : Bool) (sr fn : String)
    (rel : String → String → String) (p : Program)
    (h : ¬ "use client" ∈ p.directives) :
    clientReferencesPlugin isServer sr fn rel p = (p, none) := by
  simp [clientReferencesPlugin, h]

/-- Witness for C7 at a concrete directive-free module, on both targets. -/
theorem clientReferences_no_directive_witness :
    clientReferencesPlugin true "/s" "/s/f.js" (fun _ b => b)
        ⟨[], [.exportDefaultD (some .otherExpr)]⟩ =
      (⟨[], [.exportDefaultD (some .otherExpr)]⟩, none) ∧
    clientReferencesPlugin false "/s" "/s/f.js" (fun _ b => b)
        ⟨["use strict"], [.otherStmt 0]⟩ =
      (⟨["use strict"], [.otherStmt 0]⟩, none) :=
  ⟨clientReferences_no_directive true "/s" "/s/f.js" (fun _ b => b) _ (by decide),
   clientReferences_no_directive false "/s" "/s/f.js" (fun _ b => b) _ (by decide)⟩

/-- C9: a default-export node with no declaration — a shape the enumerator
does not recognize — contributes no name: the collected export list, the
recorded manifest metadata, and the generated server stub body are the same
with and without the malformed item, and the transformation still completes
for the rest of the file. -/
theorem malformed_export_skipped (sr fn : String)
    (rel : String → String → String) (dirs : List String)
    (l r : List ModuleItem) :
    collectExports (l ++ .exportDefaultD none :: r) = collectExports (l ++ r) ∧
    (∀ isServer,
      (clientReferencesPlugin isServer sr fn rel
          ⟨dirs, l ++ .exportDefaultD none :: r⟩).2 =
        (clientReferencesPlugin isServer sr fn rel ⟨dirs, l ++ r⟩).2) ∧
    ("use client" ∈ dirs →
      (clientReferencesPlugin true sr fn rel
          ⟨dirs, l ++ .exportDefaultD none :: r⟩).1 =
        (clientReferencesPlugin true sr fn rel ⟨dirs, l ++ r⟩).1) := by
  have hex : collectExports (l ++ .exportDefaultD none :: r) =
      collectExports (l ++ r) := by
    simp [collectExports, itemExports]
  refine ⟨hex, ?_, ?_⟩
  · intro isServer
    by_cases h : "use client" ∈ dirs
    · cases isServer <;> simp [clientReferencesPlugin, h, hex]
    · simp [clientReferencesPlugin, h]
  · intro h
    simp [clientReferencesPlugin, h, hex]

/-- Witness for C9: a concrete client file where the malformed default export
sits between two recognized exports. -/
theorem malformed_export_skipped_witness :
    (∀ isServer,
      (clientReferencesPlugin isServer "/s" "/s/f.js" (fun _ b => b)
          ⟨["use client"],
           [.exportNamed (some (.otherDecl "Foo")) [],
            .exportDefaultD none,
            .exportNamed none ["bar"]]⟩).2 =
        (clientReferencesPlugin isServer "/s" "/s/f.js" (fun _ b => b)
          ⟨["use client"],
           [.exportNamed (some (.otherDecl "Foo")) [],
            .exportNamed none ["bar"]]⟩).2) ∧
    (clientReferencesPlugin true "/s" "/s/f.js" (fun _ b => b)
        ⟨["use client"],
         [.exportNamed (some (.otherDecl "Foo")) [],
          .exportDefaultD none,
          .exportNamed none ["bar"]]⟩).1 =
      (clientReferencesPlugin true "/s" "/s/f.js" (fun _ b => b)
        ⟨["use client"],
         [.exportNamed (some (.otherDecl "Foo")) [],
          .exportNamed none ["bar"]]⟩).1 :=
  ⟨(malformed_export_skipped "/s" "/s/f.js" (fun _ b => b) ["use client"]
      [.exportNamed (some (.otherDecl "Foo")) []]
      [.exportNamed none ["bar"]]).2.1,
   (malformed_export_skipped "/s" "/s/f.js" (fun _ b => b) ["use client"]
      [.exportNamed (some (.otherDecl "Foo")) []]
      [.exportNamed none ["bar"]]).2.2 (by decide)⟩

/-! ## Env-inlining claims -/

/-- The per-platform import-mode variable name differs from every shorter
recognized name. -/
theorem importModeVar_ne (s t : String) (h : t.length < 24) :
    ¬ ("EXPO_ROUTER_IMPORT_MODE_" ++ s) = t := by
  intro he
  have hl := congrArg String.length he
  rw [String.length_append] at hl
  have h24 : ("EXPO_ROUTER_IMPORT_MODE_" : String).length = 24 := rfl
  rw [h24] at hl
  omega

/-- The per-platform import-mode variable name differs from the absolute
app-root variable name (same length, different characters). -/
theorem importModeVar_ne_abs (s : String) :
    ¬ ("EXPO_ROUTER_IMPORT_MODE_" ++ s) = "EXPO_ROUTER_ABS_APP_ROOT" := by
  intro he
  have hl := congrArg String.length he
  rw [String.length_append] at hl
  have h24 : ("EXPO_ROUTER_IMPORT_MODE_" : String).length = 24 := rfl
  have habs : ("EXPO_ROUTER_ABS_APP_ROOT" : String).length = 24 := rfl
  rw [h24, habs] at hl
  have hs : s.length = 0 := by omega
  have hd : s.data = [] := List.eq_nil_of_length_eq_zero hs
  have hse : s = "" := by
    cases s
    simp only [String.data] at hd
    simp [hd]
  rw [hse] at he
  exact absurd he (by decide)

/-- Running the pass on `process.env.<name>` is exactly the dispatch. -/
theorem inlineExpr_procEnvRead (ctx : Ctx) (name : String) (pa : Bool) (st : St) :
    inlineExpr ctx (procEnvRead name) pa st = envMemberDispatch ctx name pa st := by
  simp [inlineExpr, procEnvRead, isProcEnv]

/-- In a test environment the dispatch leaves the absolute app-root read
untouched. -/
theorem envMemberDispatch_abs_test (ctx : Ctx) (st : St)
    (h : st.env "NODE_ENV" = some "test") :
    envMemberDispatch ctx "EXPO_ROUTER_ABS_APP_ROOT" false st =
      .ok (procEnvRead "EXPO_ROUTER_ABS_APP_ROOT", st) := by
  unfold envMemberDispatch
  rw [if_neg (by simp), if_neg (by simp), if_neg (by simp [h]),
    if_neg (by simp)]
  cases hp : ctx.platform with
  | none => rfl
  | some p =>
      exact if_neg (fun hcond => importModeVar_ne_abs (jsToUpper p) hcond.2.1.symm)

/-- In a test environment the dispatch leaves the relative app-root read
untouched. -/
theorem envMemberDispatch_approot_test (ctx : Ctx) (st : St)
    (h : st.env "NODE_ENV" = some "test") :
    envMemberDispatch ctx "EXPO_ROUTER_APP_ROOT" false st =
      .ok (procEnvRead "EXPO_ROUTER_APP_ROOT", st) := by
  unfold envMemberDispatch
  rw [if_neg (by simp), if_neg (by simp), if_neg (by simp),
    if_neg (by simp [h])]
  cases hp : ctx.platform with
  | none => rfl
  | some p =>
      exact if_neg (fun hcond =>
        importModeVar_ne (jsToUpper p) "EXPO_ROUTER_APP_ROOT" (by decide)
          hcond.2.1.symm)

/-- Outside a test environment the dispatch rewrites the absolute app-root
read to the resolver string. -/
theorem envMemberDispatch_abs_rewrite (ctx : Ctx) (st : St)
    (h : ¬ st.env "NODE_ENV" = some "test") :
    envMemberDispatch ctx "EXPO_ROUTER_ABS_APP_ROOT" false st =
      .ok (.strLit (getExpoRouterAbsoluteAppRoot ctx st (visitorProjectRoot ctx)).1,
        (getExpoRouterAbsoluteAppRoot ctx st (visitorProjectRoot ctx)).2) := by
  unfold envMemberDispatch
  rw [if_neg (by simp), if_neg (by simp), if_pos ⟨h, rfl, rfl⟩]

/-- Outside a test environment the dispatch rewrites the relative app-root
read to the resolver string. -/
theorem envMemberDispatch_approot_rewrite (ctx : Ctx) (st : St)
    (h : ¬ st.env "NODE_ENV" = some "test") :
    envMemberDispatch ctx "EXPO_ROUTER_APP_ROOT" false st =
      .ok (.strLit (getExpoRouterAppRoot ctx st (visitorProjectRoot ctx)).1,
        (getExpoRouterAppRoot ctx st (visitorProjectRoot ctx)).2) := by
  unfold envMemberDispatch
  rw [if_neg (by simp), if_neg (by simp), if_neg (by simp),
    if_pos ⟨h, rfl, rfl⟩]

/-- C8: in a test environment (`NODE_ENV = "test"`) the pass leaves reads of
`EXPO_ROUTER_ABS_APP_ROOT` and `EXPO_ROUTER_APP_ROOT` entirely unrewritten;
outside a test environment it rewrites them to the strings produced by
`getExpoRouterAbsoluteAppRoot` and `getExpoRouterAppRoot`. -/
theorem envInlining_app_root_test_exemption (ctx : Ctx) (st : St) :
    (st.env "NODE_ENV" = some "test" →
      inlineExpr ctx (procEnvRead "EXPO_ROUTER_ABS_APP_ROOT") false st =
        .ok (procEnvRead "EXPO_ROUTER_ABS_APP_ROOT", st) ∧
      inlineExpr ctx (procEnvRead "EXPO_ROUTER_APP_ROOT") false st =
        .ok (procEnvRead "EXPO_ROUTER_APP_ROOT", st)) ∧
    (¬ st.env "NODE_ENV" = some "test" →
      inlineExpr ctx (procEnvRead "EXPO_ROUTER_ABS_APP_ROOT") false st =
        .ok (.strLit (getExpoRouterAbsoluteAppRoot ctx st (visitorProjectRoot ctx)).1,
          (getExpoRouterAbsoluteAppRoot ctx st (visitorProjectRoot ctx)).2) ∧
      inlineExpr ctx (procEnvRead "EXPO_ROUTER_APP_ROOT") false st =
        .ok (.strLit (getExpoRouterAppRoot ctx st (visitorProjectRoot ctx)).1,
          (getExpoRouterAppRoot ctx st (visitorProjectRoot ctx)).2)) := by
  constructor
  · intro h
    rw [inlineExpr_procEnvRead, inlineExpr_procEnvRead]
    exact ⟨envMemberDispatch_abs_test ctx st h,
      envMemberDispatch_approot_test ctx st h⟩
  · intro h
    rw [inlineExpr_procEnvRead, inlineExpr_procEnvRead]
    exact ⟨envMemberDispatch_abs_rewrite ctx st h,
      envMemberDispatch_approot_rewrite ctx st h⟩

/-- Witness for C8: test state leaves both reads unchanged; development state
rewrites the absolute app-root read. -/
theorem envInlining_app_root_test_exemption_witness :
    (inlineExpr ctx0 (procEnvRead "EXPO_ROUTER_ABS_APP_ROOT") false stTest =
        .ok (procEnvRead "EXPO_ROUTER_ABS_APP_ROOT", stTest) ∧
      inlineExpr ctx0 (procEnvRead "EXPO_ROUTER_APP_ROOT") false stTest =
        .ok (procEnvRead "EXPO_ROUTER_APP_ROOT", stTest)) ∧
    (inlineExpr ctx0 (procEnvRead "EXPO_ROUTER_ABS_APP_ROOT") false st0 =
        .ok (.strLit (getExpoRouterAbsoluteAppRoot ctx0 st0 (visitorProjectRoot ctx0)).1,
          (getExpoRouterAbsoluteAppRoot ctx0 st0 (visitorProjectRoot ctx0)).2) ∧
      inlineExpr ctx0 (procEnvRead "EXPO_ROUTER_APP_ROOT") false st0 =
        .ok (.strLit (getExpoRouterAppRoot ctx0 st0 (visitorProjectRoot ctx0)).1,
          (getExpoRouterAppRoot ctx0 st0 (visitorProjectRoot ctx0)).2)) :=
  ⟨(envInlining_app_root_test_exemption ctx0 stTest).1 rfl,
   (envInlining_app_root_test_exemption ctx0 st0).2 (by decide)⟩

/-- C5 (amended): when the parent of the matched member expression is an
assignment expression — on either side of it — the dispatch never rewrites
and never touches the state, for every name; otherwise each recognized name
(with its branch-specific conditions) has the entire outer member expression
replaced by the corresponding literal. -/
theorem envInlining_assignment_parent_skip (ctx : Ctx) (st : St) (name : String) :
    (envMemberDispatch ctx name true st = .ok (procEnvRead name, st)) ∧
    (name = "EXPO_PROJECT_ROOT" →
      envMemberDispatch ctx name false st =
        .ok (.strLit (visitorProjectRoot ctx), st)) ∧
    (name = "EXPO_PUBLIC_USE_STATIC" →
      envMemberDispatch ctx name false st =
        .ok (.boolLit
          (if ctx.platform = some "web" then
            (if st.env "EXPO_PUBLIC_USE_STATIC" = some "true" ∨
                st.env "EXPO_PUBLIC_USE_STATIC" = some "1" then true else false)
           else false), st)) ∧
    (¬ st.env "NODE_ENV" = some "test" → name = "EXPO_ROUTER_ABS_APP_ROOT" →
      envMemberDispatch ctx name false st =
        .ok (.strLit (getExpoRouterAbsoluteAppRoot ctx st (visitorProjectRoot ctx)).1,
          (getExpoRouterAbsoluteAppRoot ctx st (visitorProjectRoot ctx)).2)) ∧
    (¬ st.env "NODE_ENV" = some "test" → name = "EXPO_ROUTER_APP_ROOT" →
      envMemberDispatch ctx name false st =
        .ok (.strLit (getExpoRouterAppRoot ctx st (visitorProjectRoot ctx)).1,
          (getExpoRouterAppRoot ctx st (visitorProjectRoot ctx)).2)) ∧
    (∀ p, ctx.platform = some p → ¬ p = "" →
      name = "EXPO_ROUTER_IMPORT_MODE_" ++ jsToUpper p →
      ∀ m st1,
        getExpoRouterImportMode ctx st (visitorProjectRoot ctx) p = .ok (m, st1) →
        envMemberDispatch ctx name false st = .ok (.strLit m, st1)) := by
  refine ⟨?_, ?_, ?_, ?_, ?_, ?_⟩
  · unfold envMemberDispatch
    rw [if_neg (by simp), if_neg (by simp), if_neg (by simp), if_neg (by simp)]
    cases ctx.platform with
    | none => rfl
    | some p => exact if_neg (by simp)
  · intro h
    subst h
    unfold envMemberDispatch
    rw [if_pos ⟨rfl, rfl⟩]
  · intro h
    subst h
    unfold envMemberDispatch
    rw [if_neg (by simp), if_pos ⟨rfl, rfl⟩]
  · intro hne h
    subst h
    exact envMemberDispatch_abs_rewrite ctx st hne
  · intro hne h
    subst h
    exact envMemberDispatch_approot_rewrite ctx st hne
  · intro p hp hpne hname m st1 hok
    subst hname
    unfold envMemberDispatch
    rw [if_neg (fun hcond =>
        importModeVar_ne (jsToUpper p) "EXPO_PROJECT_ROOT" (by decide) hcond.1),
      if_neg (fun hcond =>
        importModeVar_ne (jsToUpper p) "EXPO_PUBLIC_USE_STATIC" (by decide) hcond.1),
      if_neg (fun hcond => importModeVar_ne_abs (jsToUpper p) hcond.2.1),
      if_neg (fun hcond =>
        importModeVar_ne (jsToUpper p) "EXPO_ROUTER_APP_ROOT" (by decide) hcond.2.1)]
    simp only [hp]
    rw [if_pos ⟨hpne, trivial, trivial⟩, hok]

/-- Witness for C5: a skipped rewrite in assignment-parent position, a
performed rewrite of the project-root read, and a performed rewrite of the
web import-mode read. -/
theorem envInlining_assignment_parent_skip_witness :
    envMemberDispatch ctx0 "EXPO_PROJECT_ROOT" true st0 =
      .ok (procEnvRead "EXPO_PROJECT_ROOT", st0) ∧
    envMemberDispatch ctx0 "EXPO_PROJECT_ROOT" false st0 =
      .ok (.strLit (visitorProjectRoot ctx0), st0) ∧
    envMemberDispatch ctx0 "EXPO_ROUTER_IMPORT_MODE_WEB" false st0 =
      .ok (.strLit "sync",
        St.set { st0 with config := some cfg0 } "EXPO_ROUTER_IMPORT_MODE_WEB" "sync") :=
  ⟨(envInlining_assignment_parent_skip ctx0 st0 "EXPO_PROJECT_ROOT").1,
   (envInlining_assignment_parent_skip ctx0 st0 "EXPO_PROJECT_ROOT").2.1 rfl,
   (envInlining_assignment_parent_skip ctx0 st0
      "EXPO_ROUTER_IMPORT_MODE_WEB").2.2.2.2.2 "web" rfl (by decide) rfl
      "sync" _ rfl⟩

/-- Counterexample for C5 as stated: the read of `EXPO_PROJECT_ROOT` on the
right-hand side of `x = process.env.EXPO_PROJECT_ROOT` is not an assignment
target, yet the pass leaves it unrewritten (the check skips any member
expression whose parent is an assignment expression, not only write
targets); the same read outside an assignment is rewritten. -/
theorem envInlining_rhs_assignment_not_rewritten :
    okExpr (inlineExpr ctx0
        (.assign (.ident "x") (procEnvRead "EXPO_PROJECT_ROOT")) false st0) =
      some (.assign (.ident "x") (procEnvRead "EXPO_PROJECT_ROOT")) ∧
    okExpr (inlineExpr ctx0 (procEnvRead "EXPO_PROJECT_ROOT") false st0) =
      some (.strLit "/p") :=
  ⟨rfl, rfl⟩

/-! ## Idempotence of the env-inlining pass (C6) -/

/-- Setting one environment key leaves every other key unchanged. -/
theorem St.env_set_ne (st : St) (k v k2 : String) (h : ¬ k2 = k) :
    (st.set k v).env k2 = st.env k2 := by
  simp [St.set, h]

/-- `getConfigMemo` never touches the environment store. -/
theorem getConfigMemo_env (ctx : Ctx) (st : St) (pr : String) :
    (getConfigMemo ctx st pr).2.env = st.env := by
  unfold getConfigMemo
  cases st.config with
  | none => rfl
  | some c =>
      dsimp only
      split <;> rfl

/-- `getExpoRouterAbsoluteAppRoot` preserves `NODE_ENV`. -/
theorem getExpoRouterAbsoluteAppRoot_NE (ctx : Ctx) (st : St) (pr : String) :
    ((getExpoRouterAbsoluteAppRoot ctx st pr).2).env "NODE_ENV" =
      st.env "NODE_ENV" := by
  unfold getExpoRouterAbsoluteAppRoot
  split
  · rfl
  · rcases hg : getConfigMemo ctx st pr with ⟨cfg, st1⟩
    dsimp only
    rw [St.env_set_ne _ _ _ _ (by decide)]
    have hc := congrFun (getConfigMemo_env ctx st pr) "NODE_ENV"
    rw [hg] at hc
    exact hc

/-- `getExpoRouterAppRoot` preserves `NODE_ENV`. -/
theorem getExpoRouterAppRoot_NE (ctx : Ctx) (st : St) (pr : String) :
    ((getExpoRouterAppRoot ctx st pr).2).env "NODE_ENV" = st.env "NODE_ENV" := by
  unfold getExpoRouterAppRoot
  split
  · rfl
  · rcases ha : getExpoRouterAbsoluteAppRoot ctx st pr with ⟨appFolder, st1⟩
    dsimp only
    rw [St.env_set_ne _ _ _ _ (by decide)]
    have hb := getExpoRouterAbsoluteAppRoot_NE ctx st pr
    rw [ha] at hb
    exact hb

/-- A successful `getExpoRouterImportMode` preserves `NODE_ENV`. -/
theorem getExpoRouterImportMode_NE (ctx : Ctx) (st : St) (pr p m : String)
    (st1 : St) (h : getExpoRouterImportMode ctx st pr p = .ok (m, st1)) :
    st1.env "NODE_ENV" = st.env "NODE_ENV" := by
  have hcore : ∀ st1, importModeCore ctx st pr p ("EXPO_ROUTER_IMPORT_MODE_" ++ jsToUpper p) =
      .ok (m, st1) → st1.env "NODE_ENV" = st.env "NODE_ENV" := by
    intro stx hx
    rcases hg : getConfigMemo ctx st pr with ⟨cfg, st2⟩
    simp only [importModeCore, hg] at hx
    split at hx
    · exact absurd hx (by simp)
    · simp only [Except.ok.injEq, Prod.mk.injEq] at hx
      obtain ⟨_, hst⟩ := hx
      rw [← hst]
      rw [St.env_set_ne _ _ _ _
        (fun he => importModeVar_ne (jsToUpper p) "NODE_ENV" (by decide) he.symm)]
      have := getConfigMemo_env ctx st pr
      rw [hg] at this
      rw [congrFun this "NODE_ENV"]
  unfold getExpoRouterImportMode at h
  cases hv : st.env ("EXPO_ROUTER_IMPORT_MODE_" ++ jsToUpper p) with
  | none =>
      simp only [hv] at h
      exact hcore st1 h
  | some v =>
      simp only [hv] at h
      by_cases hve : v = ""
      · rw [if_pos hve] at h
        exact hcore st1 h
      · rw [if_neg hve] at h
        simp only [Except.ok.injEq, Prod.mk.injEq] at h
        rw [← h.2]

/-- A true `isProcEnv` test pins the expression down. -/
theorem isProcEnv_eq_true {e : Expr} (h : isProcEnv e = true) :
    e = .member (.ident "process") "env" := by
  simpa [isProcEnv] using h

/-- A `process.env.<name>` read is itself never the `process.env` node. -/
theorem isProcEnv_procEnvRead (name : String) :
    isProcEnv (procEnvRead name) = false := by
  simp [isProcEnv, procEnvRead]

/-- A successful dispatch preserves `NODE_ENV`. -/
theorem envMemberDispatch_NE (ctx : Ctx) (name : String) (pa : Bool) (st : St)
    (e' : Expr) (st1 : St)
    (h : envMemberDispatch ctx name pa st = .ok (e', st1)) :
    st1.env "NODE_ENV" = st.env "NODE_ENV" := by
  unfold envMemberDispatch at h
  split at h
  · simp only [Except.ok.injEq, Prod.mk.injEq] at h
    rw [← h.2]
  · split at h
    · simp only [Except.ok.injEq, Prod.mk.injEq] at h
      rw [← h.2]
    · split at h
      · simp only [Except.ok.injEq, Prod.mk.injEq] at h
        rw [← h.2]
        exact getExpoRouterAbsoluteAppRoot_NE ctx st _
      · split at h
        · simp only [Except.ok.injEq, Prod.mk.injEq] at h
          rw [← h.2]
          exact getExpoRouterAppRoot_NE ctx st _
        · split at h
          · split at h
            · split at h
              · rename_i ms hm
                simp only [Except.ok.injEq, Prod.mk.injEq] at h
                rw [← h.2]
                exact getExpoRouterImportMode_NE ctx st _ _ ms.1 ms.2 (by rw [hm])
              · exact absurd h (by simp)
            · simp only [Except.ok.injEq, Prod.mk.injEq] at h
              rw [← h.2]
          · simp only [Except.ok.injEq, Prod.mk.injEq] at h
            rw [← h.2]

/-- A successful dispatch either replaced the node by a string or boolean
literal, or left it untouched without changing the state; in the untouched
case the dispatch skips under every state with the same `NODE_ENV`. -/
theorem envMemberDispatch_ok_cases (ctx : Ctx) (name : String) (pa : Bool)
    (st : St) (e' : Expr) (st1 : St)
    (h : envMemberDispatch ctx name pa st = .ok (e', st1)) :
    (∃ s, e' = Expr.strLit s) ∨ (∃ b, e' = Expr.boolLit b) ∨
    (e' = procEnvRead name ∧ st1 = st ∧
      ∀ st2, st2.env "NODE_ENV" = st.env "NODE_ENV" →
        envMemberDispatch ctx name pa st2 = .ok (procEnvRead name, st2)) := by
  unfold envMemberDispatch at h
  split at h
  · left
    simp only [Except.ok.injEq, Prod.mk.injEq] at h
    exact ⟨_, h.1.symm⟩
  · rename_i hc1
    split at h
    · right; left
      simp only [Except.ok.injEq, Prod.mk.injEq] at h
      exact ⟨_, h.1.symm⟩
    · rename_i hc2
      split at h
      · left
        simp only [Except.ok.injEq, Prod.mk.injEq] at h
        exact ⟨_, h.1.symm⟩
      · rename_i hc3
        split at h
        · left
          simp only [Except.ok.injEq, Prod.mk.injEq] at h
          exact ⟨_, h.1.symm⟩
        · rename_i hc4
          split at h
          · rename_i p hp
            split at h
            · split at h
              · left
                simp only [Except.ok.injEq, Prod.mk.injEq] at h
                exact ⟨_, h.1.symm⟩
              · exact absurd h (by simp)
            · rename_i hc5
              right; right
              simp only [Except.ok.injEq, Prod.mk.injEq] at h
              refine ⟨h.1.symm, h.2.symm, ?_⟩
              intro st2 hne
              have hc3s : ¬ (¬ st2.env "NODE_ENV" = some "test" ∧
                  name = "EXPO_ROUTER_ABS_APP_ROOT" ∧ pa = false) := by
                rw [hne]; exact hc3
              have hc4s : ¬ (¬ st2.env "NODE_ENV" = some "test" ∧
                  name = "EXPO_ROUTER_APP_ROOT" ∧ pa = false) := by
                rw [hne]; exact hc4
              unfold envMemberDispatch
              rw [if_neg hc1, if_neg hc2, if_neg hc3s, if_neg hc4s]
              simp only [hp]
              exact if_neg hc5
          · rename_i hp
            right; right
            simp only [Except.ok.injEq, Prod.mk.injEq] at h
            refine ⟨h.1.symm, h.2.symm, ?_⟩
            intro st2 hne
            have hc3s : ¬ (¬ st2.env "NODE_ENV" = some "test" ∧
                name = "EXPO_ROUTER_ABS_APP_ROOT" ∧ pa = false) := by
              rw [hne]; exact hc3
            have hc4s : ¬ (¬ st2.env "NODE_ENV" = some "test" ∧
                name = "EXPO_ROUTER_APP_ROOT" ∧ pa = false) := by
              rw [hne]; exact hc4
            unfold envMemberDispatch
            rw [if_neg hc1, if_neg hc2, if_neg hc3s, if_neg hc4s]
            simp only [hp]

/-- A successful inlining run preserves `NODE_ENV`. -/
theorem inlineExpr_NE (ctx : Ctx) :
    ∀ (e : Expr) (pa : Bool) (st : St) (e' : Expr) (st1 : St),
      inlineExpr ctx e pa st = .ok (e', st1) →
      st1.env "NODE_ENV" = st.env "NODE_ENV" := by
  intro e
  induction e with
  | ident n =>
      intro pa st e' st1 h
      simp only [inlineExpr, Except.ok.injEq, Prod.mk.injEq] at h
      rw [← h.2]
  | strLit s =>
      intro pa st e' st1 h
      simp only [inlineExpr, Except.ok.injEq, Prod.mk.injEq] at h
      rw [← h.2]
  | boolLit b =>
      intro pa st e' st1 h
      simp only [inlineExpr, Except.ok.injEq, Prod.mk.injEq] at h
      rw [← h.2]
  | member obj prop iho =>
      intro pa st e' st1 h
      simp only [inlineExpr] at h
      by_cases hpe : isProcEnv obj
      · rw [if_pos hpe] at h
        exact envMemberDispatch_NE ctx prop pa st e' st1 h
      · rw [if_neg hpe] at h
        cases hobj : inlineExpr ctx obj false st with
        | error err => rw [hobj] at h; exact absurd h (by simp)
        | ok os =>
            rw [hobj] at h
            simp only [Except.ok.injEq, Prod.mk.injEq] at h
            rw [← h.2]
            exact iho false st os.1 os.2 (by rw [hobj])
  | assign l r ihl ihr =>
      intro pa st e' st1 h
      simp only [inlineExpr] at h
      cases hl : inlineExpr ctx l true st with
      | error err => rw [hl] at h; exact absurd h (by simp)
      | ok ls =>
          rw [hl] at h
          dsimp only at h
          cases hr : inlineExpr ctx r true ls.2 with
          | error err => rw [hr] at h; exact absurd h (by simp)
          | ok rs =>
              rw [hr] at h
              simp only [Except.ok.injEq, Prod.mk.injEq] at h
              rw [← h.2]
              exact (ihr true ls.2 rs.1 rs.2 (by rw [hr])).trans
                (ihl true st ls.1 ls.2 (by rw [hl]))
  | bin op l r ihl ihr =>
      intro pa st e' st1 h
      simp only [inlineExpr] at h
      cases hl : inlineExpr ctx l false st with
      | error err => rw [hl] at h; exact absurd h (by simp)
      | ok ls =>
          rw [hl] at h
          dsimp only at h
          cases hr : inlineExpr ctx r false ls.2 with
          | error err => rw [hr] at h; exact absurd h (by simp)
          | ok rs =>
              rw [hr] at h
              simp only [Except.ok.injEq, Prod.mk.injEq] at h
              rw [← h.2]
              exact (ihr false ls.2 rs.1 rs.2 (by rw [hr])).trans
                (ihl false st ls.1 ls.2 (by rw [hl]))

/-- The pass only produces an identifier where the input already was that
identifier. -/
theorem inlineExpr_ident_inv (ctx : Ctx) (a : Expr) (pa : Bool) (st : St)
    (a' : Expr) (st1 : St) (h : inlineExpr ctx a pa st = .ok (a', st1))
    (s : String) (ha : a' = .ident s) : a = .ident s := by
  cases a with
  | ident n =>
      simp only [inlineExpr, Except.ok.injEq, Prod.mk.injEq] at h
      rw [h.1, ha]
  | strLit s0 =>
      simp only [inlineExpr, Except.ok.injEq, Prod.mk.injEq] at h
      rw [← h.1] at ha
      exact absurd ha (by simp)
  | boolLit b0 =>
      simp only [inlineExpr, Except.ok.injEq, Prod.mk.injEq] at h
      rw [← h.1] at ha
      exact absurd ha (by simp)
  | member obj prop =>
      simp only [inlineExpr] at h
      by_cases hpe : isProcEnv obj
      · rw [if_pos hpe] at h
        rcases envMemberDispatch_ok_cases ctx prop pa st a' st1 h with
          ⟨s0, rfl⟩ | ⟨b0, rfl⟩ | ⟨he, _, _⟩
        · exact absurd ha (by simp)
        · exact absurd ha (by simp)
        · rw [he] at ha
          exact absurd ha (by simp [procEnvRead])
      · rw [if_neg hpe] at h
        cases hobj : inlineExpr ctx obj false st with
        | error err => rw [hobj] at h; exact absurd h (by simp)
        | ok os =>
            rw [hobj] at h
            simp only [Except.ok.injEq, Prod.mk.injEq] at h
            rw [← h.1] at ha
            exact absurd ha (by simp)
  | assign l r =>
      simp only [inlineExpr] at h
      cases hl : inlineExpr ctx l true st with
      | error err => rw [hl] at h; exact absurd h (by simp)
      | ok ls =>
          rw [hl] at h
          dsimp only at h
          cases hr : inlineExpr ctx r true ls.2 with
          | error err => rw [hr] at h; exact absurd h (by simp)
          | ok rs =>
              rw [hr] at h
              simp only [Except.ok.injEq, Prod.mk.injEq] at h
              rw [← h.1] at ha
              exact absurd ha (by simp)
  | bin op l r =>
      simp only [inlineExpr] at h
      cases hl : inlineExpr ctx l false st with
      | error err => rw [hl] at h; exact absurd h (by simp)
      | ok ls =>
          rw [hl] at h
          dsimp only at h
          cases hr : inlineExpr ctx r false ls.2 with
          | error err => rw [hr] at h; exact absurd h (by simp)
          | ok rs =>
              rw [hr] at h
              simp only [Except.ok.injEq, Prod.mk.injEq] at h
              rw [← h.1] at ha
              exact absurd ha (by simp)

/-- The pass never turns a non-`process.env` node into `process.env`. -/
theorem inlineExpr_not_procEnv (ctx : Ctx) (a : Expr) (pa : Bool) (st : St)
    (a' : Expr) (st1 : St) (hobj : isProcEnv a = false)
    (h : inlineExpr ctx a pa st = .ok (a', st1)) : isProcEnv a' = false := by
  by_contra hfa
  have htrue : isProcEnv a' = true := by
    cases hx : isProcEnv a' with
    | true => rfl
    | false => exact absurd hx hfa
  have ha' : a' = .member (.ident "process") "env" := isProcEnv_eq_true htrue
  cases a with
  | ident n =>
      simp only [inlineExpr, Except.ok.injEq, Prod.mk.injEq] at h
      rw [← h.1] at ha'
      exact absurd ha' (by simp)
  | strLit s0 =>
      simp only [inlineExpr, Except.ok.injEq, Prod.mk.injEq] at h
      rw [← h.1] at ha'
      exact absurd ha' (by simp)
  | boolLit b0 =>
      simp only [inlineExpr, Except.ok.injEq, Prod.mk.injEq] at h
      rw [← h.1] at ha'
      exact absurd ha' (by simp)
  | member obj prop =>
      simp only [inlineExpr] at h
      by_cases hpe : isProcEnv obj
      · rw [if_pos hpe] at h
        rcases envMemberDispatch_ok_cases ctx prop pa st a' st1 h with
          ⟨s0, he⟩ | ⟨b0, he⟩ | ⟨he, _, _⟩
        · rw [he] at ha'; exact absurd ha' (by simp)
        · rw [he] at ha'; exact absurd ha' (by simp)
        · rw [he] at ha'; exact absurd ha' (by simp [procEnvRead])
      · rw [if_neg hpe] at h
        cases hobj2 : inlineExpr ctx obj false st with
        | error err => rw [hobj2] at h; exact absurd h (by simp)
        | ok os =>
            rw [hobj2] at h
            simp only [Except.ok.injEq, Prod.mk.injEq] at h
            rw [← h.1] at ha'
            have hinj : os.1 = Expr.ident "process" ∧ prop = "env" := by
              have := ha'
              simp only [Expr.member.injEq] at this
              exact this
            have hop : obj = Expr.ident "process" :=
              inlineExpr_ident_inv ctx obj false st os.1 os.2 (by rw [hobj2])
                "process" hinj.1
            rw [hop, hinj.2] at hobj
            simp [isProcEnv] at hobj
  | assign l r =>
      simp only [inlineExpr] at h
      cases hl : inlineExpr ctx l true st with
      | error err => rw [hl] at h; exact absurd h (by simp)
      | ok ls =>
          rw [hl] at h
          dsimp only at h
          cases hr : inlineExpr ctx r true ls.2 with
          | error err => rw [hr] at h; exact absurd h (by simp)
          | ok rs =>
              rw [hr] at h
              simp only [Except.ok.injEq, Prod.mk.injEq] at h
              rw [← h.1] at ha'
              exact absurd ha' (by simp)
  | bin op l r =>
      simp only [inlineExpr] at h
      cases hl : inlineExpr ctx l false st with
      | error err => rw [hl] at h; exact absurd h (by simp)
      | ok ls =>
          rw [hl] at h
          dsimp only at h
          cases hr : inlineExpr ctx r false ls.2 with
          | error err => rw [hr] at h; exact absurd h (by simp)
          | ok rs =>
              rw [hr] at h
              simp only [Except.ok.injEq, Prod.mk.injEq] at h
              rw [← h.1] at ha'
              exact absurd ha' (by simp)

/-- The output of one inlining run is a fixed point of the pass under any
state with the same `NODE_ENV`. -/
theorem inlineExpr_fixed (ctx : Ctx) :
    ∀ (e : Expr) (pa : Bool) (st : St) (e' : Expr) (st1 : St),
      inlineExpr ctx e pa st = .ok (e', st1) →
      ∀ st2, st2.env "NODE_ENV" = st.env "NODE_ENV" →
      inlineExpr ctx e' pa st2 = .ok (e', st2) := by
  intro e
  induction e with
  | ident n =>
      intro pa st e' st1 h st2 hne
      simp only [inlineExpr, Except.ok.injEq, Prod.mk.injEq] at h
      rw [← h.1]
      simp [inlineExpr]
  | strLit s =>
      intro pa st e' st1 h st2 hne
      simp only [inlineExpr, Except.ok.injEq, Prod.mk.injEq] at h
      rw [← h.1]
      simp [inlineExpr]
  | boolLit b =>
      intro pa st e' st1 h st2 hne
      simp only [inlineExpr, Except.ok.injEq, Prod.mk.injEq] at h
      rw [← h.1]
      simp [inlineExpr]
  | member obj prop iho =>
      intro pa st e' st1 h st2 hne
      simp only [inlineExpr] at h
      by_cases hpe : isProcEnv obj
      · rw [if_pos hpe] at h
        rcases envMemberDispatch_ok_cases ctx prop pa st e' st1 h with
          ⟨s0, rfl⟩ | ⟨b0, rfl⟩ | ⟨he, hst, hskip⟩
        · simp [inlineExpr]
        · simp [inlineExpr]
        · subst he
          rw [inlineExpr_procEnvRead]
          exact hskip st2 hne
      · rw [if_neg hpe] at h
        cases hobj : inlineExpr ctx obj false st with
        | error err => rw [hobj] at h; exact absurd h (by simp)
        | ok os =>
            rw [hobj] at h
            simp only [Except.ok.injEq, Prod.mk.injEq] at h
            rw [← h.1]
            have hpe2 : isProcEnv os.1 = false :=
              inlineExpr_not_procEnv ctx obj false st os.1 os.2
                (by simpa using hpe) (by rw [hobj])
            simp only [inlineExpr]
            rw [if_neg (by simp [hpe2])]
            rw [iho false st os.1 os.2 (by rw [hobj]) st2 hne]
  | assign l r ihl ihr =>
      intro pa st e' st1 h st2 hne
      simp only [inlineExpr] at h
      cases hl : inlineExpr ctx l true st with
      | error err => rw [hl] at h; exact absurd h (by simp)
      | ok ls =>
          rw [hl] at h
          dsimp only at h
          cases hr : inlineExpr ctx r true ls.2 with
          | error err => rw [hr] at h; exact absurd h (by simp)
          | ok rs =>
              rw [hr] at h
              simp only [Except.ok.injEq, Prod.mk.injEq] at h
              rw [← h.1]
              have hnel : ls.2.env "NODE_ENV" = st.env "NODE_ENV" :=
                inlineExpr_NE ctx l true st ls.1 ls.2 (by rw [hl])
              simp only [inlineExpr]
              rw [ihl true st ls.1 ls.2 (by rw [hl]) st2 hne]
              dsimp only
              rw [ihr true ls.2 rs.1 rs.2 (by rw [hr]) st2 (hne.trans hnel.symm)]
  | bin op l r ihl ihr =>
      intro pa st e' st1 h st2 hne
      simp only [inlineExpr] at h
      cases hl : inlineExpr ctx l false st with
      | error err => rw [hl] at h; exact absurd h (by simp)
      | ok ls =>
          rw [hl] at h
          dsimp only at h
          cases hr : inlineExpr ctx r false ls.2 with
          | error err => rw [hr] at h; exact absurd h (by simp)
          | ok rs =>
              rw [hr] at h
              simp only [Except.ok.injEq, Prod.mk.injEq] at h
              rw [← h.1]
              have hnel : ls.2.env "NODE_ENV" = st.env "NODE_ENV" :=
                inlineExpr_NE ctx l false st ls.1 ls.2 (by rw [hl])
              simp only [inlineExpr]
              rw [ihl false st ls.1 ls.2 (by rw [hl]) st2 hne]
              dsimp only
              rw [ihr false ls.2 rs.1 rs.2 (by rw [hr]) st2 (hne.trans hnel.symm)]

/-- C6: running the env-inlining pass a second time on the output of a
successful first run changes nothing — the resulting tree is a fixed point
of the pass, and the second run does not even change the state. -/
theorem envInliningPass_idempotent (ctx : Ctx) (st : St) (e e' : Expr)
    (st1 : St) (h : inlineExpr ctx e false st = .ok (e', st1)) :
    inlineExpr ctx e' false st1 = .ok (e', st1) :=
  inlineExpr_fixed ctx e false st e' st1 h st1
    (inlineExpr_NE ctx e false st e' st1 h)

/-- Witness for C6: a concrete first run rewriting the project-root read and
leaving an unknown name, whose output the second run fixes. -/
theorem envInliningPass_idempotent_witness :
    inlineExpr ctx0 (.bin "+" (.strLit "/p") (procEnvRead "UNKNOWN")) false st0 =
      .ok (.bin "+" (.strLit "/p") (procEnvRead "UNKNOWN"), st0) :=
  envInliningPass_idempotent ctx0 st0
    (.bin "+" (procEnvRead "EXPO_PROJECT_ROOT") (procEnvRead "UNKNOWN"))
    (.bin "+" (.strLit "/p") (procEnvRead "UNKNOWN")) st0 rfl
